import Mathlib

/-!
Shallow embedding of the configuration-discovery / deduplication engine and
the worker bootstrap + RPC bridge of the `vitest-vscode` repository
(`src/unnamed/part_000`, `src/unnamed/part_001`, `src/src/worker/actions.ts`),
together with theorems settling the specification claims about them.

Strings, lists and association lists model the JavaScript values; JavaScript
numeric quirks that are observable in the embedded code (`undefined`, `NaN`
arising from `mapCount[folder]++` on a missing key) are modelled explicitly.
-/

set_option autoImplicit false

namespace VitestVscode

/-- JavaScript `String.prototype.split` with a single-character separator,
on an explicit character list.  `splitCharList '/' "".data = [[]]`,
matching `"".split('/') = [""]`. -/
def splitCharList (delim : Char) : List Char → List (List Char)
  | [] => [[]]
  | c :: rest =>
    let r := splitCharList delim rest
    if c = delim then [] :: r
    else
      match r with
      | [] => [[c]]
      | seg :: segs => (c :: seg) :: segs

/-- JavaScript `p.split(delim)` for a one-character `delim`, as used by
`findFirstUniqueFolderNames` (`p.split('/')` in `src/unnamed/part_000:236`). -/
def jsSplit (delim : Char) (s : String) : List String :=
  (splitCharList delim s.data).map (fun l => String.mk l)

/-- `pathe`'s `basename` for the plain (already normalized, no trailing
slash) paths this code passes to it: the last `/`-separated segment. -/
def basename (p : String) : String :=
  (jsSplit '/' p).getLastD ""

/-- `pathe`'s `dirname` for the plain normalized paths this code passes to
it: everything before the last `/`-separated segment (`"/"` for a direct
child of the root, `"."` when there is no separator). -/
def dirname (p : String) : String :=
  match (jsSplit '/' p).dropLast with
  | [] => "."
  | [""] => "/"
  | parts => String.intercalate "/" parts

/-- A JavaScript numeric value as stored in the `mapCount` record of
`findFirstUniqueFolderNames`: a (natural) count, or `NaN` (the result of
`mapCount[folder]++` when `mapCount[folder]` was `undefined`). -/
inductive JSNum where
  | num : Nat → JSNum
  | nan : JSNum
deriving DecidableEq, Repr

/-- The `mapCount` record: string keys to JavaScript numbers, missing key =
`undefined` (`none` on lookup). -/
def Counts := List (String × JSNum)

/-- Record lookup: `mapCount[str]`, `none` meaning `undefined`. -/
def lookupCount : Counts → String → Option JSNum
  | [], _ => none
  | (k, v) :: rest, s => if k = s then some v else lookupCount rest s

/-- Record update: `mapCount[k] = v`. -/
def setCount : Counts → String → JSNum → Counts
  | [], k, v => [(k, v)]
  | (k', v') :: rest, k, v =>
    if k' = k then (k, v) :: rest else (k', v') :: setCount rest k v

/-- `(mapCount[str] || 0) + 1` — the counting-phase increment
(`src/unnamed/part_000:242`).  `undefined`, `NaN` and `0` are all falsy,
so each of them yields `1`. -/
def jsCountIncrement (v : Option JSNum) : JSNum :=
  match v with
  | some (JSNum.num c) => if c = 0 then JSNum.num 1 else JSNum.num (c + 1)
  | some JSNum.nan => JSNum.num 1
  | none => JSNum.num 1

/-- `mapCount[folder]++` — the post-pick increment
(`src/unnamed/part_000:258`).  `undefined++` and `NaN++` store `NaN`. -/
def jsPlusPlus (v : Option JSNum) : JSNum :=
  match v with
  | some (JSNum.num c) => JSNum.num (c + 1)
  | some JSNum.nan => JSNum.nan
  | none => JSNum.nan

/-- One counting step of the first `forEach` of `findFirstUniqueFolderNames`
(`src/unnamed/part_000:239-243`): empty segments are skipped, every other
segment's count is bumped. -/
def countSegment (mc : Counts) (str : String) : Counts :=
  if str = "" then mc
  else setCount mc str (jsCountIncrement (lookupCount mc str))

/-- The full counting phase: every segment of every path, in path order. -/
def countAll (segss : List (List String)) : Counts :=
  segss.foldl (fun mc segs => segs.foldl countSegment mc) []

/-- `mapCount[str] < minCount` where `minCount : Option Nat` is `∞` when
`none`.  Comparisons against `undefined`/`NaN` are `false` in JavaScript. -/
def jsLtMin (v : Option JSNum) (minCount : Option Nat) : Bool :=
  match v, minCount with
  | some (JSNum.num _), none => true
  | some (JSNum.num c), some m => decide (c < m)
  | _, _ => false

/-- The inner selection loop of `findFirstUniqueFolderNames`
(`src/unnamed/part_000:250-256`): scan the remaining segments of one path,
tracking `minCount` (`none` = `Infinity`) and the current best `folder`
(initially `""`); a segment is taken when its count is strictly below
`minCount` and it was not already chosen for an earlier path. -/
def pickOne (mc : Counts) (folders : List String) :
    List String → Option Nat → String → String
  | [], _, folder => folder
  | str :: rest, minCount, folder =>
    match lookupCount mc str with
    | some (JSNum.num c) =>
      if jsLtMin (some (JSNum.num c)) minCount = true ∧ str ∉ folders then
        pickOne mc folders rest (some c) str
      else
        pickOne mc folders rest minCount folder
    | _ => pickOne mc folders rest minCount folder

/-- The outer selection loop of `findFirstUniqueFolderNames`
(`src/unnamed/part_000:246-260`): for each path pick a folder, then run
`mapCount[folder]++` and `folders.push(folder)`. -/
def pickFolders (mc : Counts) (folders : List String) :
    List (List String) → List String
  | [] => folders
  | segs :: rest =>
    let folder := pickOne mc folders segs none ""
    pickFolders (setCount mc folder (jsPlusPlus (lookupCount mc folder)))
      (folders ++ [folder]) rest

/-- The remaining ancestor segments of one id path:
`p.split('/').reverse().slice(2)` (`src/unnamed/part_000:236`). -/
def segmentsOf (p : String) : List String :=
  ((jsSplit '/' p).reverse).drop 2

/-- `findFirstUniqueFolderNames` (`src/unnamed/part_000:233-263`): per path,
greedily choose the rarest not-yet-used remaining ancestor segment, `""`
when none qualifies. -/
def findFirstUniqueFolderNames (paths : List String) : List String :=
  pickFolders (countAll (paths.map segmentsOf)) [] (paths.map segmentsOf)

/-- The fields of the `VitestPackage` interface (`src/unnamed/part_000:15-29`)
that the discovery / deduplication engine reads or writes.  The source field
`prefix` is spelled `prefixName` here because `prefix` is a Lean keyword.
Fields the algorithms never inspect (`folder`, `vitestNodePath`,
`vitestPackageJsonPath`, `loader`, `pnp`) are omitted. -/
structure VitestPackage where
  prefixName : String
  id : String
  cwd : String := ""
  version : String := ""
  arguments : Option String := none
  configFile : Option String := none
  workspaceFile : Option String := none
deriving DecidableEq, Repr

/-- A package with every field defaulted, used as the `getD` default. -/
def dummyPkg : VitestPackage :=
  { prefixName := "", id := "" }

/-- The id list of the prefix group a package belongs to: the first loop of
`resolvePackagUniquePrefixes` (`src/unnamed/part_000:268-274`) pushes each
package's `id` onto `prefixes[pkg.prefix]` in input order, so the group for
a prefix value is the ids of the packages carrying that prefix, in order. -/
def groupIds (pkgs : List VitestPackage) (pfx : String) : List String :=
  (pkgs.filter (fun p => VitestPackage.prefixName p == pfx)).map VitestPackage.id

/-- The folder `findFirstUniqueFolderNames` assigns to `pkg` inside its
prefix group (`folders[index]` at `src/unnamed/part_000:284`). -/
def assignedFolder (pkgs : List VitestPackage) (pkg : VitestPackage) : String :=
  let group := groupIds pkgs (VitestPackage.prefixName pkg)
  (findFirstUniqueFolderNames group).getD (group.indexOf (VitestPackage.id pkg)) ""

/-- The per-package effect of the second loop of `resolvePackagUniquePrefixes`
(`src/unnamed/part_000:276-287`): groups of size 1 are skipped; in a larger
group every member's prefix becomes `` `${folder}:${basename(path)}` ``.
The source mutates `projects[path].prefix` in place through an id-keyed
record; this functional rendering coincides with it whenever ids are unique
(the documented invariant of the discovered set), since each package then
sits at position `group.indexOf pkg.id` of its own group and belongs to
exactly one group. -/
def assignPrefix (pkgs : List VitestPackage) (pkg : VitestPackage) : VitestPackage :=
  let group := groupIds pkgs (VitestPackage.prefixName pkg)
  if group.length == 1 then pkg
  else
    { pkg with
      prefixName := assignedFolder pkgs pkg ++ ":" ++ basename (VitestPackage.id pkg) }

/-- `resolvePackagUniquePrefixes` (`src/unnamed/part_000:265-290`), the
Unique Prefix Assigner: returns the input packages with every member of a
multi-element prefix group re-prefixed. -/
def resolvePackagUniquePrefixes (pkgs : List VitestPackage) : List VitestPackage :=
  pkgs.map (assignPrefix pkgs)

/-- The result shape of both discovery strategies
(`{ meta: VitestPackage[]; warned: boolean }`). -/
structure DiscoveryResult where
  meta : List VitestPackage
  warned : Bool
deriving DecidableEq, Repr

/-- `resolveVitestPackages` (`src/unnamed/part_000:96-105`), with the results
of the two (asynchronous, effectful) strategies supplied as parameters.  The
returned `Bool` records whether the fallback
`resolveVitestPackagesViaPackageJson` call on line 101 executes: it does
exactly when `!vitest.meta.length && !vitest.warned`. -/
def resolveVitestPackages (viaConfigs viaPackageJson : DiscoveryResult) :
    List VitestPackage × Bool :=
  if viaConfigs.meta.length == 0 && !viaConfigs.warned then
    (viaPackageJson.meta, true)
  else
    (viaConfigs.meta, false)

/-- JavaScript `hay.startsWith(needle)` on character lists. -/
def isPrefixCharList : List Char → List Char → Bool
  | [], _ => true
  | _ :: _, [] => false
  | a :: as, b :: bs => a == b && isPrefixCharList as bs

/-- JavaScript `s.startsWith(pre)`. -/
def jsStartsWith (s pre : String) : Bool :=
  isPrefixCharList pre.data s.data

/-- Whether a manifest script value qualifies for manifest-script discovery:
`script.startsWith('vitest ')` (`src/unnamed/part_000:134`).  Only the
script's value is consulted, never its key. -/
def scriptQualifies (script : String) : Bool :=
  jsStartsWith script "vitest "

/-- The package entry emitted for one qualifying manifest script
(`src/unnamed/part_000:136-147`): id `` `${pkgPath}/${scriptName}` ``,
prefix `` `package.json:${scriptName}` ``, the whole script text as
`arguments`.  `pkgPath` stands for the already-normalized manifest path and
`version` for the validated package version. -/
def scriptEntry (pkgPath version : String) (s : String × String) : VitestPackage :=
  { prefixName := "package.json:" ++ s.1,
    id := pkgPath ++ "/" ++ s.1,
    cwd := dirname pkgPath,
    version := version,
    arguments := some s.2 }

/-- The script loop of `resolveVitestPackagesViaPackageJson`
(`src/unnamed/part_000:131-148`) for one manifest whose Vitest package
already resolved and validated: each `[scriptName, script]` entry with
`script.startsWith('vitest ')` pushes one package entry, in script order.
(Non-string script values are skipped by the source's `typeof` guard; the
typed model only carries string values.) -/
def packageJsonProjects (pkgPath version : String)
    (scripts : List (String × String)) : List VitestPackage :=
  scripts.foldr
    (fun s acc => if scriptQualifies s.2 then scriptEntry pkgPath version s :: acc else acc)
    []

/-- JavaScript `hay.includes(needle)` on character lists: infix test. -/
def isInfixCharList (n : List Char) : List Char → Bool
  | [] => isPrefixCharList n []
  | c :: t => isPrefixCharList n (c :: t) || isInfixCharList n t

/-- JavaScript `hay.includes(needle)` on strings, as used by the vite/vitest
config filename tests (`src/unnamed/part_000:212-216`). -/
def jsIncludes (hay needle : String) : Bool :=
  isInfixCharList needle.data hay.data

/-- `hasViteAndVitestConfig` (`src/unnamed/part_000:212-213`): the directory's
candidate set holds both a basename containing `"vite."` and a basename
containing `"vitest."`. -/
def hasViteAndVitestConfig (configFiles : List String) : Bool :=
  (configFiles.any fun f => jsIncludes (basename f) "vite.") &&
  (configFiles.any fun f => jsIncludes (basename f) "vitest.")

/-- The per-directory override filter of `resolveVitestPackagesViaConfigs`
(`src/unnamed/part_000:215-217`): when both kinds co-exist, drop every file
whose basename contains `"vite."`; otherwise keep the candidate set whole. -/
def filteredConfigFiles (configFiles : List String) : List String :=
  if hasViteAndVitestConfig configFiles then
    configFiles.filter fun f => !jsIncludes (basename f) "vite."
  else configFiles

/-- An untyped JSON-like message payload value, enough to express the
`errors` field the worker sends: strings and arrays. -/
inductive JVal where
  | str : String → JVal
  | arr : List JVal → JVal

/-- A worker reply message: its `type` tag and its `errors` payload. -/
structure WorkerMessage where
  type : String
  errors : JVal

/-- Encode a list of `(id, errorDetail)` pairs the way the `init` handler
builds its `errors` array (`errors.push([meta.id, err.stack])`,
`src/unnamed/part_001:75`): an array of two-element arrays. -/
def encodePairs (es : List (String × String)) : JVal :=
  JVal.arr (es.map fun e => JVal.arr [JVal.str e.1, JVal.str e.2])

/-- Decode an `errors` payload as a list of `(id, errorDetail)` pairs:
the shape the protocol (`{ type, errors: [id, errorDetail][] }`) declares.
`none` when the payload is not a list of string pairs. -/
def decodePair : JVal → Option (String × String)
  | JVal.arr [JVal.str a, JVal.str b] => some (a, b)
  | _ => none

/-- Decode a whole `errors` payload; `none` if any element is malformed. -/
def decodePairs : JVal → Option (List (String × String))
  | JVal.arr xs => xs.mapM decodePair
  | _ => none

/-- One project descriptor as the worker's `init` loop consumes it, with the
outcome of the (external, effectful) `initVitest` construction supplied as
data: `Except.ok ()` when the execution context constructs, `Except.error s`
when it throws with stack detail `s`. -/
def InitOutcome := String × Except String Unit

/-- The per-project loop of the `init` handler (`src/unnamed/part_001:69-77`)
as explicit state passing on the process working directory.  Returns
`(cwd after the loop, number of constructed contexts, failure pairs,
cwd observed right after each project's initialization)`.  Each iteration
first runs `process.chdir(dirname(meta.id))`, then `initVitest(meta)` with
that working directory; a throw pushes `[meta.id, err.stack]` and the loop
continues with the remaining projects. -/
def initProjects : String → List InitOutcome →
    String × Nat × List (String × String) × List String
  | cwd, [] => (cwd, 0, [], [])
  | _, (id, r) :: rest =>
    let cwd1 := dirname id
    match r with
    | Except.ok _ =>
      let (cwdEnd, n, es, obs) := initProjects cwd1 rest
      (cwdEnd, n + 1, es, cwd1 :: obs)
    | Except.error e =>
      let (cwdEnd, n, es, obs) := initProjects cwd1 rest
      (cwdEnd, n, (id, e) :: es, cwd1 :: obs)

/-- The outcome of the whole `init` handler body
(`src/unnamed/part_001:63-99`, the non-throwing path): after the loop the
worker runs `process.chdir(cwd)` with the original directory captured on
line 56, then replies `{ type: 'error', errors }` when `!vitest.length`
and `{ type: 'ready', errors }` otherwise. -/
structure WorkerInitResult where
  reply : WorkerMessage
  finalCwd : String
  cwdAfterEach : List String

/-- The `init` handler over a descriptor list: loop, restore the original
working directory, reply once. -/
def workerInit (orig : String) (metas : List InitOutcome) : WorkerInitResult :=
  let (_, n, es, obs) := initProjects orig metas
  let reply :=
    if n == 0 then { type := "error", errors := encodePairs es : WorkerMessage }
    else { type := "ready", errors := encodePairs es }
  { reply := reply, finalCwd := orig, cwdAfterEach := obs }

/-- Number of successfully constructed execution contexts. -/
def countSuccess (metas : List InitOutcome) : Nat :=
  metas.countP fun m => m.2.isOk

/-- The failure pairs the loop accumulates, in project order. -/
def failuresOf (metas : List InitOutcome) : List (String × String) :=
  metas.filterMap fun m =>
    match m.2 with
    | Except.ok _ => none
    | Except.error e => some (m.1, e)

/-- The `error` helper of the worker (`src/unnamed/part_001:107-112`), used
by the top-level `catch` of the `init` handler: it sends
`{ type: 'error', errors: ['', String(err.stack)] }` — note the payload is
one flat two-element array, not an array of pairs. -/
def workerTopLevelError (stack : String) : WorkerMessage :=
  { type := "error", errors := JVal.arr [JVal.str "", JVal.str stack] }

/-- One in-worker execution context as the RPC dispatch sees it: the set of
method names the instance exposes (`prop in vitest`) and an opaque
evaluation function for forwarded calls. -/
structure VitestCtx where
  methods : List String
  call : String → List String → String

/-- `vitestById[id]` lookup over the id-keyed context table. -/
def lookupCtx : List (String × VitestCtx) → String → Option VitestCtx
  | [], _ => none
  | (k, v) :: rest, s => if k = s then some v else lookupCtx rest s

/-- The function the `Proxy` `get` trap of `createWorkerMethods` returns for
every property other than `close` (`src/src/worker/actions.ts:21-29`): look
the first argument up as a project id; throw `Vitest instance not found
with id: …` when it is unknown, throw `Method not found: …` when the
context lacks the method, otherwise forward the remaining arguments to the
same-named method and return its result.  (`close` itself, actions.ts:6-15,
instead disposes every context, swallowing disposal errors.) -/
def workerMethodCall (vitestById : List (String × VitestCtx))
    (prop : String) (id : String) (args : List String) : Except String String :=
  match lookupCtx vitestById id with
  | none => Except.error ("Vitest instance not found with id: " ++ id)
  | some vitest =>
    if prop ∈ vitest.methods then Except.ok (vitest.call prop args)
    else Except.error ("Method not found: " ++ prop)

/-- `needle` occurs as a contiguous substring of `hay`. -/
def containsSubstring (needle hay : String) : Prop :=
  ∃ pre post, hay = pre ++ needle ++ post

/-- The `Proxy` `get` trap of `createWorkerMethods`
(`src/src/worker/actions.ts:17-30`): the fixed `close` property returns the
target's own close handler (modelled as `none` — closing takes no project
id), every other property name yields the id-dispatching function
`workerMethodCall`. -/
def createWorkerMethods (vitestById : List (String × VitestCtx)) (prop : String) :
    Option (String → List String → Except String String) :=
  if prop = "close" then none
  else some (workerMethodCall vitestById prop)

/-- Two disambiguating folders may only collide when one of them is the
empty fallback. -/
def distinctR (a b : String) : Prop :=
  a ≠ "" → b ≠ "" → a ≠ b

/-!  Theorems.  First, the behaviour of `findFirstUniqueFolderNames`. -/

/-- The folder selected by the inner loop is either the empty fallback or a
segment that was not yet chosen for an earlier path (the
`!folders.includes(str)` conjunct of the guard). -/
theorem pickOne_empty_or_fresh (mc : Counts) (folders : List String) :
    ∀ (segs : List String) (minCount : Option Nat) (folder : String),
      folder = "" ∨ folder ∉ folders →
      pickOne mc folders segs minCount folder = ""
        ∨ pickOne mc folders segs minCount folder ∉ folders := by
  intro segs
  induction segs with
  | nil =>
    intro minCount folder h
    simpa [pickOne] using h
  | cons str rest ih =>
    intro minCount folder h
    simp only [pickOne]
    split
    · split
      · next hcond => exact ih _ _ (Or.inr hcond.2)
      · exact ih _ _ h
    · exact ih _ _ h

/-- The outer loop appends exactly one folder per path. -/
theorem pickFolders_length :
    ∀ (segss : List (List String)) (mc : Counts) (folders : List String),
      (pickFolders mc folders segss).length = folders.length + segss.length := by
  intro segss
  induction segss with
  | nil => intro mc folders; simp [pickFolders]
  | cons segs rest ih =>
    intro mc folders
    simp only [pickFolders]
    rw [ih]
    simp
    omega

/-- The folder list stays pairwise collision-free (up to the empty
fallback) as the outer loop extends it. -/
theorem pickFolders_pairwise :
    ∀ (segss : List (List String)) (mc : Counts) (folders : List String),
      folders.Pairwise distinctR →
      (pickFolders mc folders segss).Pairwise distinctR := by
  intro segss
  induction segss with
  | nil =>
    intro mc folders h
    simpa [pickFolders] using h
  | cons segs rest ih =>
    intro mc folders h
    simp only [pickFolders]
    apply ih
    have hf := pickOne_empty_or_fresh mc folders segs none "" (Or.inl rfl)
    rw [List.pairwise_append]
    refine ⟨h, List.pairwise_singleton _ _, ?_⟩
    intro a ha b hb
    simp only [List.mem_singleton] at hb
    subst hb
    intro ha' hb'
    rcases hf with hf | hf
    · exact absurd hf hb'
    · intro heq
      exact hf (heq ▸ ha)

/-- `findFirstUniqueFolderNames` returns one folder per input path. -/
theorem findFirstUniqueFolderNames_length (paths : List String) :
    (findFirstUniqueFolderNames paths).length = paths.length := by
  simp [findFirstUniqueFolderNames, pickFolders_length]

/-- The returned folders are pairwise distinct whenever both are
non-empty. -/
theorem findFirstUniqueFolderNames_pairwise (paths : List String) :
    (findFirstUniqueFolderNames paths).Pairwise distinctR :=
  pickFolders_pairwise _ _ _ List.Pairwise.nil

/-- Index form of the pairwise statement. -/
theorem findFirstUniqueFolderNames_getD_ne (paths : List String) (i j : Nat)
    (hi : i < (findFirstUniqueFolderNames paths).length)
    (hj : j < (findFirstUniqueFolderNames paths).length)
    (hne : i ≠ j)
    (h1 : (findFirstUniqueFolderNames paths).getD i "" ≠ "")
    (h2 : (findFirstUniqueFolderNames paths).getD j "" ≠ "") :
    (findFirstUniqueFolderNames paths).getD i ""
      ≠ (findFirstUniqueFolderNames paths).getD j "" := by
  have hp := findFirstUniqueFolderNames_pairwise paths
  rw [List.pairwise_iff_get] at hp
  rw [List.getD_eq_getElem _ _ hi] at h1 ⊢
  rw [List.getD_eq_getElem _ _ hj] at h2 ⊢
  rcases Nat.lt_or_ge i j with hij | hij
  · exact hp ⟨i, hi⟩ ⟨j, hj⟩ hij h1 h2
  · have hji : j < i := Nat.lt_of_le_of_ne hij (Ne.symm hne)
    exact (hp ⟨j, hj⟩ ⟨i, hi⟩ hji h2 h1).symm

/-- C10: `findFirstUniqueFolderNames` returns a list of exactly the input's
length (one chosen folder per path, in input order), and any two entries at
distinct indices that are both non-empty strings differ — a duplicated
disambiguator can only ever be the empty string. -/
theorem findFirstUniqueFolderNames_one_per_path_and_unique (paths : List String) :
    (findFirstUniqueFolderNames paths).length = paths.length
    ∧ ∀ i j : Nat,
        i < (findFirstUniqueFolderNames paths).length →
        j < (findFirstUniqueFolderNames paths).length →
        i ≠ j →
        (findFirstUniqueFolderNames paths).getD i "" ≠ "" →
        (findFirstUniqueFolderNames paths).getD j "" ≠ "" →
        (findFirstUniqueFolderNames paths).getD i ""
          ≠ (findFirstUniqueFolderNames paths).getD j "" :=
  ⟨findFirstUniqueFolderNames_length paths,
   fun i j hi hj hne h1 h2 =>
     findFirstUniqueFolderNames_getD_ne paths i j hi hj hne h1 h2⟩

/-- C10, evaluated: on `["/a/x/p/cfg", "/a/y/p/cfg"]` the two returned
folders (`"x"` and `"y"`) are indeed distinct. -/
theorem findFirstUniqueFolderNames_one_per_path_and_unique_witness :
    (findFirstUniqueFolderNames ["/a/x/p/cfg", "/a/y/p/cfg"]).getD 0 ""
      ≠ (findFirstUniqueFolderNames ["/a/x/p/cfg", "/a/y/p/cfg"]).getD 1 "" :=
  (findFirstUniqueFolderNames_one_per_path_and_unique
      ["/a/x/p/cfg", "/a/y/p/cfg"]).2 0 1
    (by decide) (by decide) (by decide) (by decide) (by decide)

/-- C3, refuted: on the spec's own example paths the function does not
return `["proj1", "proj2"]` — `reverse().slice(2)` discards the basename
*and* the immediate parent folder, so `proj1`/`proj2` are never candidates;
the remaining segments are `["a", ""]` for both paths. -/
theorem findFirstUniqueFolderNames_example_counterexample :
    findFirstUniqueFolderNames
        ["/a/proj1/vitest.config.ts", "/a/proj2/vitest.config.ts"]
      ≠ ["proj1", "proj2"] := by decide

/-- C3 (amended): on `["/a/proj1/vitest.config.ts",
"/a/proj2/vitest.config.ts"]` the function returns `["a", ""]` — the first
path takes the shared grandparent `"a"`, the second finds every candidate
already used and falls back to `""` — so a prefix group containing these two
ids would be re-prefixed to `"a:vitest.config.ts"` and
`":vitest.config.ts"`. -/
theorem findFirstUniqueFolderNames_example_actual :
    findFirstUniqueFolderNames
        ["/a/proj1/vitest.config.ts", "/a/proj2/vitest.config.ts"]
      = ["a", ""]
    ∧ (resolvePackagUniquePrefixes
        [{ prefixName := "vitest.config.ts", id := "/a/proj1/vitest.config.ts" },
         { prefixName := "vitest.config.ts", id := "/a/proj2/vitest.config.ts" }]).map
        VitestPackage.prefixName
      = ["a:vitest.config.ts", ":vitest.config.ts"] := by decide

/-- C2, refuted: prefixes in the returned set need not be pairwise distinct
even when every two projects sharing an initial prefix differ in a remaining
ancestor segment.  Here the `"p:cfg"` group is re-prefixed to `"x:cfg"` and
`"y:cfg"`, which collides with the untouched singleton group `"x:cfg"`. -/
theorem resolvePackagUniquePrefixes_counterexample :
    segmentsOf "/a/x/p/cfg" ≠ segmentsOf "/a/y/p/cfg"
    ∧ ((resolvePackagUniquePrefixes
        [{ prefixName := "p:cfg", id := "/a/x/p/cfg" },
         { prefixName := "p:cfg", id := "/a/y/p/cfg" },
         { prefixName := "x:cfg", id := "/q/x/cfg" }]).map
        VitestPackage.prefixName
      = ["x:cfg", "y:cfg", "x:cfg"])
    ∧ ¬ ((resolvePackagUniquePrefixes
        [{ prefixName := "p:cfg", id := "/a/x/p/cfg" },
         { prefixName := "p:cfg", id := "/a/y/p/cfg" },
         { prefixName := "x:cfg", id := "/q/x/cfg" }]).map
        VitestPackage.prefixName).Nodup := by decide

/-- Right cancellation for string concatenation. -/
theorem string_append_cancel_right (a b c : String) (h : a ++ c = b ++ c) :
    a = b := by
  obtain ⟨la⟩ := a
  obtain ⟨lb⟩ := b
  obtain ⟨lc⟩ := c
  have h2 : la ++ lc = lb ++ lc := congrArg String.data h
  exact congrArg String.mk (List.append_cancel_right h2)

/-- `getD` commutes with `map` at in-range indices. -/
theorem getD_map_pkg (pkgs : List VitestPackage)
    (f : VitestPackage → VitestPackage) (i : Nat) (hi : i < pkgs.length) :
    (pkgs.map f).getD i dummyPkg = f (pkgs.getD i dummyPkg) := by
  rw [List.getD_eq_getElem _ _ (by simpa using hi),
    List.getD_eq_getElem _ _ hi, List.getElem_map]

/-- An in-range `getD` entry is a member. -/
theorem getD_mem_pkg (pkgs : List VitestPackage) (i : Nat)
    (hi : i < pkgs.length) : pkgs.getD i dummyPkg ∈ pkgs := by
  rw [List.getD_eq_getElem _ _ hi]
  exact List.getElem_mem hi

/-- A package's id is in its own prefix group. -/
theorem id_mem_groupIds (pkgs : List VitestPackage) (pkg : VitestPackage)
    (hmem : pkg ∈ pkgs) (pfx : String)
    (hpfx : VitestPackage.prefixName pkg = pfx) :
    VitestPackage.id pkg ∈ groupIds pkgs pfx := by
  refine List.mem_map.mpr ⟨pkg, List.mem_filter.mpr ⟨hmem, ?_⟩, rfl⟩
  simpa using hpfx

/-- C2 (amended): after the Unique Prefix Assigner runs, two projects that
shared the same initial prefix receive distinct new prefixes whenever their
id basenames agree and both of their assigned disambiguating folders are
non-empty (ids being unique, the data-model invariant).  The original claim
— global pairwise distinctness given only that same-prefix projects differ
in a remaining ancestor segment — fails: a re-prefixed group member can
collide with a project of a *different* group
(`resolvePackagUniquePrefixes_counterexample`), and same-group members can
both receive the empty fallback folder. -/
theorem resolvePackagUniquePrefixes_group_unique (pkgs : List VitestPackage)
    (i j : Nat) (hi : i < pkgs.length) (hj : j < pkgs.length) (hne : i ≠ j)
    (hids : (pkgs.map VitestPackage.id).Nodup)
    (hpre : VitestPackage.prefixName (pkgs.getD i dummyPkg)
          = VitestPackage.prefixName (pkgs.getD j dummyPkg))
    (hbase : basename (VitestPackage.id (pkgs.getD i dummyPkg))
           = basename (VitestPackage.id (pkgs.getD j dummyPkg)))
    (hfi : assignedFolder pkgs (pkgs.getD i dummyPkg) ≠ "")
    (hfj : assignedFolder pkgs (pkgs.getD j dummyPkg) ≠ "") :
    VitestPackage.prefixName ((resolvePackagUniquePrefixes pkgs).getD i dummyPkg)
      ≠ VitestPackage.prefixName ((resolvePackagUniquePrefixes pkgs).getD j dummyPkg) := by
  have hmapi := getD_map_pkg pkgs (assignPrefix pkgs) i hi
  have hmapj := getD_map_pkg pkgs (assignPrefix pkgs) j hj
  have hAmem := getD_mem_pkg pkgs i hi
  have hBmem := getD_mem_pkg pkgs j hj
  -- distinct ids at distinct indices
  have hid : VitestPackage.id (pkgs.getD i dummyPkg)
      ≠ VitestPackage.id (pkgs.getD j dummyPkg) := by
    rw [List.getD_eq_getElem _ _ hi, List.getD_eq_getElem _ _ hj]
    intro h
    have hi' : i < (pkgs.map VitestPackage.id).length := by simpa using hi
    have hj' : j < (pkgs.map VitestPackage.id).length := by simpa using hj
    have hmapeq : (pkgs.map VitestPackage.id)[i] = (pkgs.map VitestPackage.id)[j] := by
      simpa [List.getElem_map] using h
    exact hne (hids.getElem_inj_iff.mp hmapeq)
  -- both ids are in the same group
  have hgB : groupIds pkgs (VitestPackage.prefixName (pkgs.getD j dummyPkg))
      = groupIds pkgs (VitestPackage.prefixName (pkgs.getD i dummyPkg)) := by
    rw [hpre]
  have hmi : VitestPackage.id (pkgs.getD i dummyPkg)
      ∈ groupIds pkgs (VitestPackage.prefixName (pkgs.getD i dummyPkg)) :=
    id_mem_groupIds pkgs _ hAmem _ rfl
  have hmj : VitestPackage.id (pkgs.getD j dummyPkg)
      ∈ groupIds pkgs (VitestPackage.prefixName (pkgs.getD i dummyPkg)) := by
    rw [← hgB]
    exact id_mem_groupIds pkgs _ hBmem _ rfl
  have hia : (groupIds pkgs (VitestPackage.prefixName (pkgs.getD i dummyPkg))).indexOf
      (VitestPackage.id (pkgs.getD i dummyPkg))
      < (groupIds pkgs (VitestPackage.prefixName (pkgs.getD i dummyPkg))).length :=
    List.indexOf_lt_length.mpr hmi
  have hib : (groupIds pkgs (VitestPackage.prefixName (pkgs.getD i dummyPkg))).indexOf
      (VitestPackage.id (pkgs.getD j dummyPkg))
      < (groupIds pkgs (VitestPackage.prefixName (pkgs.getD i dummyPkg))).length :=
    List.indexOf_lt_length.mpr hmj
  have hiaib : (groupIds pkgs (VitestPackage.prefixName (pkgs.getD i dummyPkg))).indexOf
      (VitestPackage.id (pkgs.getD i dummyPkg))
      ≠ (groupIds pkgs (VitestPackage.prefixName (pkgs.getD i dummyPkg))).indexOf
      (VitestPackage.id (pkgs.getD j dummyPkg)) := by
    intro h
    apply hid
    have h1 := List.getElem_indexOf hia
    have h2 := List.getElem_indexOf hib
    rw [← h1, ← h2]
    congr 1
  have hglen : (groupIds pkgs (VitestPackage.prefixName (pkgs.getD i dummyPkg))).length
      ≠ 1 := by omega
  have hcondA : ¬ (((groupIds pkgs
      (VitestPackage.prefixName (pkgs.getD i dummyPkg))).length == 1) = true) := by
    simpa using hglen
  have hcondB : ¬ (((groupIds pkgs
      (VitestPackage.prefixName (pkgs.getD j dummyPkg))).length == 1) = true) := by
    rw [hgB]
    exact hcondA
  -- reduce the two result entries to the else branch of `assignPrefix`
  have redA : assignPrefix pkgs (pkgs.getD i dummyPkg)
      = { pkgs.getD i dummyPkg with
          prefixName := assignedFolder pkgs (pkgs.getD i dummyPkg) ++ ":"
            ++ basename (VitestPackage.id (pkgs.getD i dummyPkg)) } := by
    simp only [assignPrefix]
    rw [if_neg hcondA]
  have redB : assignPrefix pkgs (pkgs.getD j dummyPkg)
      = { pkgs.getD j dummyPkg with
          prefixName := assignedFolder pkgs (pkgs.getD j dummyPkg) ++ ":"
            ++ basename (VitestPackage.id (pkgs.getD j dummyPkg)) } := by
    simp only [assignPrefix]
    rw [if_neg hcondB]
  simp only [resolvePackagUniquePrefixes]
  rw [hmapi, hmapj, redA, redB]
  intro heq
  have heq2 : assignedFolder pkgs (pkgs.getD i dummyPkg) ++ ":"
      ++ basename (VitestPackage.id (pkgs.getD i dummyPkg))
      = assignedFolder pkgs (pkgs.getD j dummyPkg) ++ ":"
      ++ basename (VitestPackage.id (pkgs.getD j dummyPkg)) := heq
  rw [hbase] at heq2
  have hfolder : assignedFolder pkgs (pkgs.getD i dummyPkg)
      = assignedFolder pkgs (pkgs.getD j dummyPkg) :=
    string_append_cancel_right _ _ _ (string_append_cancel_right _ _ _ heq2)
  -- the assigned folders sit at distinct indices of one folder list
  have hfb : assignedFolder pkgs (pkgs.getD j dummyPkg)
      = (findFirstUniqueFolderNames (groupIds pkgs
          (VitestPackage.prefixName (pkgs.getD i dummyPkg)))).getD
        ((groupIds pkgs (VitestPackage.prefixName (pkgs.getD i dummyPkg))).indexOf
          (VitestPackage.id (pkgs.getD j dummyPkg))) "" := by
    simp only [assignedFolder]
    rw [hgB]
  rw [hfb] at hfolder hfj
  exact findFirstUniqueFolderNames_getD_ne _ _ _
    (by rw [findFirstUniqueFolderNames_length]; exact hia)
    (by rw [findFirstUniqueFolderNames_length]; exact hib)
    hiaib hfi hfj hfolder

/-- C2 (amended), evaluated: the two members of the `"p:cfg"` group receive
the distinct prefixes `"x:cfg"` and `"y:cfg"`. -/
theorem resolvePackagUniquePrefixes_group_unique_witness :
    VitestPackage.prefixName ((resolvePackagUniquePrefixes
        [{ prefixName := "p:cfg", id := "/a/x/p/cfg" },
         { prefixName := "p:cfg", id := "/a/y/p/cfg" }]).getD 0 dummyPkg)
      ≠ VitestPackage.prefixName ((resolvePackagUniquePrefixes
        [{ prefixName := "p:cfg", id := "/a/x/p/cfg" },
         { prefixName := "p:cfg", id := "/a/y/p/cfg" }]).getD 1 dummyPkg) :=
  resolvePackagUniquePrefixes_group_unique
    [{ prefixName := "p:cfg", id := "/a/x/p/cfg" },
     { prefixName := "p:cfg", id := "/a/y/p/cfg" }] 0 1
    (by decide) (by decide) (by decide) (by decide) (by decide) (by decide)
    (by decide) (by decide)

/-- C1: the manifest-script fallback runs if and only if config-file
discovery produced no project and raised no validation warning; a non-empty
config result, or an empty one with `warned` set, is returned as-is and the
fallback never runs. -/
theorem resolveVitestPackages_fallback_gating (cfg pkg : DiscoveryResult) :
    ((resolveVitestPackages cfg pkg).2 = true ↔ cfg.meta = [] ∧ cfg.warned = false)
    ∧ ((resolveVitestPackages cfg pkg).2 = true →
        (resolveVitestPackages cfg pkg).1 = pkg.meta)
    ∧ (cfg.meta ≠ [] ∨ cfg.warned = true →
        (resolveVitestPackages cfg pkg).1 = cfg.meta
        ∧ (resolveVitestPackages cfg pkg).2 = false) := by
  obtain ⟨meta, warned⟩ := cfg
  cases meta <;> cases warned <;>
    simp [resolveVitestPackages]

/-- C1, evaluated: an empty unwarned config pass falls through to the
manifest result, and a non-empty config pass suppresses the fallback. -/
theorem resolveVitestPackages_fallback_gating_witness :
    (resolveVitestPackages ⟨[], false⟩ ⟨[dummyPkg], true⟩).1 = [dummyPkg]
    ∧ (resolveVitestPackages ⟨[dummyPkg], false⟩ ⟨[], true⟩).2 = false := by
  constructor
  · exact (resolveVitestPackages_fallback_gating ⟨[], false⟩ ⟨[dummyPkg], true⟩).2.1
      (by decide)
  · exact ((resolveVitestPackages_fallback_gating ⟨[dummyPkg], false⟩ ⟨[], true⟩).2.2
      (Or.inl (by simp))).2

/-- The components of the worker `init` loop: context count, collected
failure pairs (in project order), and the working directory observed right
after each project's initialization. -/
theorem initProjects_spec (orig : String) (metas : List InitOutcome) :
    (initProjects orig metas).2.1 = countSuccess metas
    ∧ (initProjects orig metas).2.2.1 = failuresOf metas
    ∧ (initProjects orig metas).2.2.2 = metas.map (fun m => dirname m.1) := by
  induction metas generalizing orig with
  | nil => simp [initProjects, countSuccess, failuresOf]
  | cons m rest ih =>
    obtain ⟨id, r⟩ := m
    obtain ⟨ih1, ih2, ih3⟩ := ih (dirname id)
    cases r with
    | ok u =>
      simp [initProjects, countSuccess, failuresOf, List.countP_cons,
        Except.isOk, Except.toBool] at *
      exact ⟨ih1, ih2, ih3⟩
    | error e =>
      simp [initProjects, countSuccess, failuresOf, List.countP_cons,
        Except.isOk, Except.toBool] at *
      exact ⟨ih1, ih2, ih3⟩

/-- C4: the worker collects every project's construction failure as an
`(id, errorDetail)` pair without aborting the remaining projects, replies
`error` carrying the full failure list exactly when zero execution contexts
were constructed, and replies `ready` with the accumulated partial failure
list otherwise. -/
theorem workerInit_reply_spec (orig : String) (metas : List InitOutcome) :
    ((workerInit orig metas).reply.type = "error" ↔ countSuccess metas = 0)
    ∧ (countSuccess metas ≠ 0 → (workerInit orig metas).reply.type = "ready")
    ∧ (workerInit orig metas).reply.errors = encodePairs (failuresOf metas) := by
  obtain ⟨h1, h2, h3⟩ := initProjects_spec orig metas
  simp only [workerInit]
  rcases ht : initProjects orig metas with ⟨c, n, es, obs⟩
  rw [ht] at h1 h2 h3
  simp only at h1 h2 h3
  subst h1 h2
  by_cases hz : countSuccess metas = 0 <;> simp [hz]

/-- C4, evaluated: two failures out of three projects still yield `ready`
with both failure pairs; three failures out of three yield `error`. -/
theorem workerInit_reply_spec_witness :
    (workerInit "/root"
      [("/w/p1/a", Except.ok ()), ("/w/p2/b", Except.error "boom"),
       ("/w/p3/c", Except.ok ())]).reply.type = "ready"
    ∧ (workerInit "/root"
      [("/w/p1/a", Except.error "x"), ("/w/p2/b", Except.error "y"),
       ("/w/p3/c", Except.error "z")]).reply.type = "error" := by
  constructor
  · exact (workerInit_reply_spec "/root"
      [("/w/p1/a", Except.ok ()), ("/w/p2/b", Except.error "boom"),
       ("/w/p3/c", Except.ok ())]).2.1 (by decide)
  · exact (workerInit_reply_spec "/root"
      [("/w/p1/a", Except.error "x"), ("/w/p2/b", Except.error "y"),
       ("/w/p3/c", Except.error "z")]).1.mpr (by decide)

/-- C8, refuted: the working directory observed after a project's
initialization (and before the next project's `chdir`) is that project's
own directory, not the worker's original one — the loop restores the
original directory only once, after all projects
(`process.chdir(cwd)` sits after the `for` loop, not inside it). -/
theorem workerInit_cwd_counterexample :
    ¬ (∀ c ∈ (workerInit "/root"
        [("/w/p1/vitest.config.ts", Except.ok ()),
         ("/w/p2/vitest.config.ts", Except.ok ())]).cwdAfterEach,
        c = "/root") := by decide

/-- C8 (amended): the working directory is set to each descriptor's
directory before that project's execution context is constructed, it still
holds that (previous) project's directory between two consecutive project
initializations, and it is restored to the worker's original directory once,
after the last project. -/
theorem workerInit_cwd_spec (orig : String) (metas : List InitOutcome) :
    (workerInit orig metas).cwdAfterEach = metas.map (fun m => dirname m.1)
    ∧ (workerInit orig metas).finalCwd = orig := by
  obtain ⟨-, -, h3⟩ := initProjects_spec orig metas
  simp only [workerInit]
  rcases ht : initProjects orig metas with ⟨c, n, es, obs⟩
  rw [ht] at h3
  simp only at h3
  subst h3
  constructor
  · by_cases hz : n == 0 <;> simp [hz]
  · by_cases hz : n == 0 <;> simp [hz]

/-- C9: on a top-level construction failure the worker's reply has type
`error`, but its `errors` field is the flat two-element array
`['', stack]` — a single malformed pair — rather than the list of
`(id, errorDetail)` pairs (`[['', stack]]`) that the protocol and the
sibling `init` path use, so it does not decode as a pair list at all. -/
theorem workerTopLevelError_flat :
    (workerTopLevelError "boom").type = "error"
    ∧ (workerTopLevelError "boom").errors
        = JVal.arr [JVal.str "", JVal.str "boom"]
    ∧ decodePairs (workerTopLevelError "boom").errors = none
    ∧ (workerTopLevelError "boom").errors ≠ encodePairs [("", "boom")] := by
  refine ⟨rfl, rfl, by decide, ?_⟩
  intro h
  simp [workerTopLevelError, encodePairs] at h

/-- Associativity of string concatenation. -/
theorem string_append_assoc (a b c : String) : a ++ b ++ c = a ++ (b ++ c) := by
  obtain ⟨la⟩ := a
  obtain ⟨lb⟩ := b
  obtain ⟨lc⟩ := c
  exact congrArg String.mk (List.append_assoc la lb lc)

/-- The empty string is a left unit. -/
theorem string_empty_append (a : String) : "" ++ a = a := by
  obtain ⟨la⟩ := a
  exact congrArg String.mk (List.nil_append la)

/-- The empty string is a right unit. -/
theorem string_append_empty (a : String) : a ++ "" = a := by
  obtain ⟨la⟩ := a
  exact congrArg String.mk (List.append_nil la)

/-- A left factor is a substring of a concatenation. -/
theorem containsSubstring_left (a b : String) : containsSubstring a (a ++ b) :=
  ⟨"", b, by rw [string_empty_append]⟩

/-- A right factor is a substring of a concatenation. -/
theorem containsSubstring_right (a b : String) : containsSubstring b (a ++ b) :=
  ⟨a, "", by rw [string_append_empty]⟩

/-- C5: for every RPC call other than `close`, the proxy yields the
id-dispatching function, which fails with
`Vitest instance not found with id: <id>` when the id resolves to no
execution context, fails with `Method not found: <method>` when the context
lacks the method, and otherwise forwards the remaining arguments to the
same-named context method and returns its result; both error messages
contain the fixed phrase and the offending id / method name. -/
theorem workerMethodCall_dispatch (m : List (String × VitestCtx))
    (prop id : String) (args : List String) (hclose : prop ≠ "close") :
    createWorkerMethods m prop = some (workerMethodCall m prop)
    ∧ (lookupCtx m id = none →
        workerMethodCall m prop id args
          = Except.error ("Vitest instance not found with id: " ++ id)
        ∧ containsSubstring "Vitest instance not found"
            ("Vitest instance not found with id: " ++ id)
        ∧ containsSubstring id ("Vitest instance not found with id: " ++ id))
    ∧ (∀ ctx, lookupCtx m id = some ctx → prop ∉ ctx.methods →
        workerMethodCall m prop id args
          = Except.error ("Method not found: " ++ prop)
        ∧ containsSubstring "Method not found" ("Method not found: " ++ prop)
        ∧ containsSubstring prop ("Method not found: " ++ prop))
    ∧ (∀ ctx, lookupCtx m id = some ctx → prop ∈ ctx.methods →
        workerMethodCall m prop id args = Except.ok (ctx.call prop args)) := by
  refine ⟨by simp [createWorkerMethods, hclose], ?_, ?_, ?_⟩
  · intro hnone
    refine ⟨by simp [workerMethodCall, hnone], ?_, ?_⟩
    · have hsplit : ("Vitest instance not found with id: " : String)
          = "Vitest instance not found" ++ " with id: " := by decide
      rw [hsplit, string_append_assoc]
      exact containsSubstring_left _ _
    · exact containsSubstring_right _ _
  · intro ctx hsome hnomethod
    refine ⟨by simp [workerMethodCall, hsome, hnomethod], ?_, ?_⟩
    · have hsplit : ("Method not found: " : String)
          = "Method not found" ++ ": " := by decide
      rw [hsplit, string_append_assoc]
      exact containsSubstring_left _ _
    · exact containsSubstring_right _ _
  · intro ctx hsome hmethod
    simp [workerMethodCall, hsome, hmethod]

/-- C5, evaluated on a one-context table exposing only `collectTests`:
unknown id, unknown method, and successful forwarding. -/
theorem workerMethodCall_dispatch_witness :
    workerMethodCall [("a", { methods := ["collectTests"], call := fun _ _ => "r" })]
      "collectTests" "b" []
      = Except.error ("Vitest instance not found with id: " ++ "b")
    ∧ workerMethodCall [("a", { methods := ["collectTests"], call := fun _ _ => "r" })]
      "foo" "a" [] = Except.error ("Method not found: " ++ "foo")
    ∧ workerMethodCall [("a", { methods := ["collectTests"], call := fun _ _ => "r" })]
      "collectTests" "a" [] = Except.ok "r" := by
  refine ⟨?_, ?_, ?_⟩
  · exact ((workerMethodCall_dispatch
      [("a", { methods := ["collectTests"], call := fun _ _ => "r" })]
      "collectTests" "b" [] (by decide)).2.1 rfl).1
  · exact ((workerMethodCall_dispatch
      [("a", { methods := ["collectTests"], call := fun _ _ => "r" })]
      "foo" "a" [] (by decide)).2.2.1
      { methods := ["collectTests"], call := fun _ _ => "r" } rfl (by decide)).1
  · exact (workerMethodCall_dispatch
      [("a", { methods := ["collectTests"], call := fun _ _ => "r" })]
      "collectTests" "a" [] (by decide)).2.2.2
      { methods := ["collectTests"], call := fun _ _ => "r" } rfl (by decide)

/-- C6: in a directory whose candidate set contains both a `"vite."`-style
and a `"vitest."`-style config basename, the override filter keeps exactly
the files whose basename does not contain `"vite."`: every kept file is free
of `"vite."`, and every `"vitest."`-style file without `"vite."` in its
basename — in particular each of several test-runner configs — survives. -/
theorem filteredConfigFiles_override (cs : List String)
    (h : hasViteAndVitestConfig cs = true) :
    filteredConfigFiles cs = cs.filter (fun f => !jsIncludes (basename f) "vite.")
    ∧ (∀ f ∈ filteredConfigFiles cs, jsIncludes (basename f) "vite." = false)
    ∧ (∀ f ∈ cs, jsIncludes (basename f) "vitest." = true →
        jsIncludes (basename f) "vite." = false → f ∈ filteredConfigFiles cs) := by
  have h1 : filteredConfigFiles cs
      = cs.filter (fun f => !jsIncludes (basename f) "vite.") := by
    simp [filteredConfigFiles, h]
  refine ⟨h1, ?_, ?_⟩
  · intro f hf
    rw [h1] at hf
    have := (List.mem_filter.mp hf).2
    simpa using this
  · intro f hf _ hv
    rw [h1]
    exact List.mem_filter.mpr ⟨hf, by simp [hv]⟩

/-- C6, evaluated: with `vite.config.ts` alongside two Vitest configs, only
the two Vitest configs survive the filter. -/
theorem filteredConfigFiles_override_witness :
    filteredConfigFiles
        ["/p/vite.config.ts", "/p/vitest.config.ts", "/p/vitest.e2e.config.ts"]
      = (["/p/vite.config.ts", "/p/vitest.config.ts",
          "/p/vitest.e2e.config.ts"].filter
          (fun f => !jsIncludes (basename f) "vite.")) :=
  (filteredConfigFiles_override
    ["/p/vite.config.ts", "/p/vitest.config.ts", "/p/vitest.e2e.config.ts"]
    (by decide)).1

/-- C7: a manifest script entry yields a project exactly when its value
starts with `"vitest "` — the emitted list is the value-filtered,
entry-mapped script list, so qualification depends only on the value and
never on the key; the value `"vitest"` (no trailing space) does not
qualify, `"vitest run"` does, `"vitest-custom run"` does not. -/
theorem packageJsonProjects_script_matching (pkgPath version : String)
    (scripts : List (String × String)) :
    packageJsonProjects pkgPath version scripts
      = (scripts.filter fun s => scriptQualifies s.2).map
          (scriptEntry pkgPath version)
    ∧ scriptQualifies "vitest run" = true
    ∧ scriptQualifies "vitest" = false
    ∧ scriptQualifies "vitest-custom run" = false := by
  refine ⟨?_, by decide, by decide, by decide⟩
  induction scripts with
  | nil => rfl
  | cons s rest ih =>
    have step : packageJsonProjects pkgPath version (s :: rest)
        = if scriptQualifies s.2
          then scriptEntry pkgPath version s
            :: packageJsonProjects pkgPath version rest
          else packageJsonProjects pkgPath version rest := rfl
    rw [step, List.filter_cons]
    by_cases h : scriptQualifies s.2
    · simp [h, ih]
    · simp [h, ih]

end VitestVscode
